import Mathlib

/-!
Verification of the reconciliation engine of the `reconcilation` repository.

The development shallowly embeds the pure core of
`src/reconcile/services.py` (the `ReconcilationService` methods
`normalize_data`, `reconcile_data`, `find_missing_in_target`,
`format_missing_data`, `find_discrepancies`, `format_discrepancies`,
`reconcile_and_save_data`), the task entry point
`src/reconcile/tasks.py` (`generate_result`, `trigger_reconcilation`)
and the status enum of `src/reconcile/enums.py`.

Modelling conventions:
* Python strings are `List Char`; `str.strip` removes the ASCII
  whitespace characters, `str.lower` maps the ASCII uppercase letters.
* A pandas cell is a `Cell`: a string, a number, a parsed timestamp, or
  null (`NaN`/`NaT`/`None` are all `Cell.null`).
* A raw pandas `DataFrame` is a list of column names plus a list of
  rows of cells; `pd.to_datetime(_, errors="coerce")` is modelled by a
  concrete ISO `yyyy-mm-dd` parser producing a parsed value or null.
* A normalized row, as consumed by the reconciliation queries, is a
  `Row` with the four required columns; its parsed `date` is
  `Option Int` (`none` is pandas `NaT`, Python `None` after rendering).
* `Timestamp.isoformat` is injective on parsed timestamps, so the
  rendered ISO string is modelled by the parsed value itself
  (`isoformat : Int → Int` is the identity on the abstract value).
* Python exceptions are `PyError`; `except ValueError` catches only the
  `valueError` constructor, exactly as in `tasks.py`.
-/

namespace Reconcile

/-! ## Text normalization (services.py, lines 69-73) -/

/-- ASCII whitespace stripped by Python `str.strip`. -/
def isSpace (c : Char) : Bool :=
  c.toNat = 32 || c.toNat = 9 || c.toNat = 10 || c.toNat = 13 || c.toNat = 11 || c.toNat = 12

/-- Python `str.lower` on a single character (ASCII model). -/
def lowerChar (c : Char) : Char :=
  if 65 ≤ c.toNat ∧ c.toNat ≤ 90 then Char.ofNat (c.toNat + 32) else c

/-- Python `str.strip`: drop whitespace from both ends. -/
def strip (l : List Char) : List Char :=
  ((l.dropWhile isSpace).reverse.dropWhile isSpace).reverse

/-- `x.strip().lower()` applied to a textual cell (line 70). -/
def cellNorm (l : List Char) : List Char :=
  (strip l).map lowerChar

/-- `col.lower().strip()` applied to a column header (line 73). -/
def colNorm (l : List Char) : List Char :=
  strip (l.map lowerChar)

/-! ## Cells, data frames and `normalize_data` (services.py, lines 58-85) -/

/-- A pandas cell value: text, a number, a parsed timestamp, or null
(`NaN`, `NaT` and Python `None` are all `null`). -/
inductive Cell where
  | str (s : List Char)
  | num (n : Int)
  | date (d : Int)
  | null
deriving DecidableEq, Repr

/-- A raw tabular dataset: column headers plus rows of cells. -/
structure DataFrame where
  cols : List (List Char)
  rows : List (List Cell)
deriving DecidableEq, Repr

/-- Python exceptions distinguished by `tasks.py`: `except ValueError`
catches `valueError` (which includes `pandas.errors.ParserError`) but
not `keyError`. -/
inductive PyError where
  | keyError (msg : List Char)
  | valueError (msg : List Char)
deriving DecidableEq, Repr

/-- The elementwise map of line 70: strip and lowercase strings, leave
every other cell unchanged. -/
def normalizeCell : Cell → Cell
  | .str s => .str (cellNorm s)
  | c => c

/-- Digit test for the date parser. -/
def isDigit (c : Char) : Bool :=
  48 ≤ c.toNat && c.toNat ≤ 57

/-- Numeric value of a digit character. -/
def digitVal (c : Char) : Int :=
  Int.ofNat c.toNat - 48

/-- Model of the date parsing done by
`pd.to_datetime(_, errors="coerce")` on a textual cell: an
`yyyy-mm-dd` string parses to an abstract temporal value, anything
else coerces to null. -/
def parseDateStr (s : List Char) : Option Int :=
  match s with
  | [y1, y2, y3, y4, '-', m1, m2, '-', d1, d2] =>
    if [y1, y2, y3, y4, m1, m2, d1, d2].all isDigit then
      some (digitVal y1 * 10000000 + digitVal y2 * 1000000 + digitVal y3 * 100000
        + digitVal y4 * 10000 + digitVal m1 * 1000 + digitVal m2 * 100
        + digitVal d1 * 10 + digitVal d2)
    else none
  | _ => none

/-- `pd.to_datetime(_, errors="coerce")` on one cell (line 83):
strings parse or coerce to null (`NaT`), numbers are interpreted as
epoch offsets, timestamps and nulls pass through. -/
def parseDateCell : Cell → Cell
  | .str s =>
    match parseDateStr s with
    | some d => .date d
    | none => .null
  | .num n => .date n
  | .date d => .date d
  | .null => .null

/-- The required columns of line 76, in source order. -/
def requiredColumns : List (List Char) :=
  ["id".toList, "name".toList, "date".toList, "amount".toList]

/-- The header of the date column. -/
def dateLit : List Char := "date".toList

/-- The `KeyError` message of line 79. -/
def missingMsg (c : List Char) : List Char :=
  "Column '".toList ++ c ++ "' is missing from one of the DataFrames.".toList

/-- Reassignment of the `date` column (line 83): parse the cell at
every position whose header is `date`, leave the rest unchanged. -/
def parseDateRow : List (List Char) → List Cell → List Cell
  | c :: cs, x :: xs => (if c = dateLit then parseDateCell x else x) :: parseDateRow cs xs
  | _, xs => xs

/-- `ReconcilationService.normalize_data` (lines 58-85): strip and
lowercase textual cells, normalize headers, require the four columns
(raising `KeyError` for the first missing one), then coerce the date
column. -/
def normalize_data (df : DataFrame) : Except PyError DataFrame :=
  match requiredColumns.find? (fun c => !((df.cols.map colNorm).contains c)) with
  | some c => .error (.keyError (missingMsg c))
  | none =>
    .ok ⟨df.cols.map colNorm,
      (df.rows.map (List.map normalizeCell)).map (parseDateRow (df.cols.map colNorm))⟩

/-! ## Normalized rows and the reconciliation queries
(services.py, lines 168-292) -/

/-- A normalized row restricted to the four required columns, as the
merge-based queries consume it: `date` is the parsed timestamp of the
`to_datetime` pass (`none` is `NaT`). -/
structure Row where
  id : Int
  name : List Char
  date : Option Int
  amount : Int
deriving DecidableEq, Repr

/-- `Timestamp.isoformat`: renders a parsed timestamp as its ISO-8601
string. The rendering is injective, so the rendered string is modelled
by the abstract temporal value itself. -/
def isoformat (d : Int) : Int := d

/-- `x.isoformat() if pd.notnull(x) else None` (lines 219, 260-265):
render a date, mapping `NaT` to Python `None`. -/
def renderDate (x : Option Int) : Option Int :=
  match x with
  | some d => some (isoformat d)
  | none => none

/-- The `_merge` indicator column of a left merge. -/
inductive MergeTag where
  | both
  | left_only
deriving DecidableEq, Repr

/-- One row of `pd.merge(a, b, how="left", on=["id","name"],
indicator=True)`: the left row, the non-key columns of the matched
right row (null when unmatched), and the indicator. -/
structure MergedRow where
  left : Row
  right : Option Row
  tag : MergeTag
deriving DecidableEq, Repr

/-- The left merge of line 200: every left row paired with each
right row sharing its `(id, name)` key, or kept alone with tag
`left_only` when no right row matches. -/
def leftMergeIdName (a b : List Row) : List MergedRow :=
  a.flatMap (fun r =>
    if (b.filter (fun w => w.id == r.id && w.name == r.name)).isEmpty
    then [⟨r, none, .left_only⟩]
    else (b.filter (fun w => w.id == r.id && w.name == r.name)).map
      (fun m => ⟨r, some m, .both⟩))

/-- An output record of the missing-data queries: the four canonical
columns with the date rendered to ISO-8601 or `None`. -/
structure OutRow where
  id : Int
  name : List Char
  date : Option Int
  amount : Int
deriving DecidableEq, Repr

/-- `ReconcilationService.format_missing_data` (lines 207-222): keep
the left-hand `date`/`amount` (the `_x` columns), render the date, and
select the four canonical columns. -/
def format_missing_data (missing : List MergedRow) : List OutRow :=
  missing.map (fun m => ⟨m.left.id, m.left.name, renderDate m.left.date, m.left.amount⟩)

/-- `ReconcilationService.find_missing_in_target` (lines 189-205):
left-merge on `(id, name)`, keep the `left_only` rows, format them. -/
def find_missing_in_target (target_df source_df : List Row) : List OutRow :=
  format_missing_data
    ((leftMergeIdName target_df source_df).filter (fun m => m.tag == .left_only))

/-- One row of the inner merge of line 236: suffixes `_source` and
`_target` on the overlapping non-key columns. -/
structure JoinedRow where
  id : Int
  name_source : List Char
  name_target : List Char
  date_source : Option Int
  date_target : Option Int
  amount_source : Int
  amount_target : Int
deriving DecidableEq, Repr

/-- `pd.merge(source_df, target_df, on=["id"], suffixes=("_source",
"_target"))`: the inner join on `id` alone. -/
def innerMergeId (s t : List Row) : List JoinedRow :=
  s.flatMap (fun r =>
    (t.filter (fun w => w.id == r.id)).map (fun w =>
      ⟨r.id, r.name, w.name, r.date, w.date, r.amount, w.amount⟩))

/-- Pandas elementwise `!=` on the parsed date columns: `NaT`
compares unequal to everything, including another `NaT`. -/
def seriesNeDate (a b : Option Int) : Bool :=
  match a, b with
  | some x, some y => x != y
  | _, _ => true

/-- The boolean mask of lines 238-242. -/
def maskRow (j : JoinedRow) : Bool :=
  (j.name_source != j.name_target)
    || seriesNeDate j.date_source j.date_target
    || (j.amount_source != j.amount_target)

/-- A discrepancy record as emitted by `format_discrepancies`: the
dictionary always has the `id` key; each of the three compared fields
is present as a `(value, target_value)` pair of keys or deleted. -/
structure Entry where
  id : Int
  name : Option (List Char × List Char)
  date : Option (Option Int × Option Int)
  amount : Option (Int × Int)
deriving DecidableEq, Repr

/-- The date rendering of lines 260-265 applied to a joined row. -/
def renderJoined (j : JoinedRow) : JoinedRow :=
  { j with
    date_source := renderDate j.date_source
    date_target := renderDate j.date_target }

/-- The full seven-key dictionary selected on lines 280-282, after the
renames of lines 268-277. -/
def fullEntry (j : JoinedRow) : Entry :=
  ⟨j.id, some (j.name_source, j.name_target),
    some (j.date_source, j.date_target),
    some (j.amount_source, j.amount_target)⟩

/-- The key deletion of lines 284-291: drop a field pair whose two
values are equal under Python `==` (where `None == None` holds). -/
def dropIfEq {α : Type} [DecidableEq α] : Option (α × α) → Option (α × α)
  | some (a, b) => if a = b then none else some (a, b)
  | none => none

/-- Prune every equal field pair from an entry (lines 284-291). -/
def pruneEntry (e : Entry) : Entry :=
  { e with
    name := dropIfEq e.name
    date := dropIfEq e.date
    amount := dropIfEq e.amount }

/-- `ReconcilationService.format_discrepancies` (lines 250-292):
render the dates, build the full dictionary, delete equal pairs. -/
def format_discrepancies (l : List JoinedRow) : List Entry :=
  l.map (fun j => pruneEntry (fullEntry (renderJoined j)))

/-- `ReconcilationService.find_discrepancies` (lines 224-248):
inner-join on `id`, keep the rows flagged by the pandas mask, format
them. -/
def find_discrepancies (source_df target_df : List Row) : List Entry :=
  format_discrepancies ((innerMergeId source_df target_df).filter maskRow)

/-- The dictionary returned by `ReconcilationService.reconcile_data`
(lines 168-187). -/
structure ReconResult where
  missing_data_in_target_file : List OutRow
  missing_data_in_source_file : List OutRow
  discrepancies : List Entry
deriving DecidableEq, Repr

/-- `ReconcilationService.reconcile_data` (lines 168-187). -/
def reconcile_data (normalized_source_df normalized_target_df : List Row) : ReconResult :=
  ⟨find_missing_in_target normalized_source_df normalized_target_df,
    find_missing_in_target normalized_target_df normalized_source_df,
    find_discrepancies normalized_source_df normalized_target_df⟩

/-! ## The job record and the task entry point
(enums.py, models.py, tasks.py, services.py lines 49-56) -/

/-- The `Status` text choices of enums.py. -/
inductive Status where
  | PROCESSING
  | SUCCESS
  | FAILED
deriving DecidableEq, Repr

/-- The fields of `ReconcilationRecord` (models.py) that the
reconciliation pipeline reads or writes; the three result fields are
nullable JSON columns, `none` until written. -/
structure JobRecord where
  status : Status
  missing_data_in_source_file : Option (List OutRow)
  missing_data_in_target_file : Option (List OutRow)
  discrepancies : Option (List Entry)
deriving DecidableEq, Repr

/-- Typed view of a normalized data frame as the list of rows the
merge queries consume: each required column is looked up by header. -/
def lookupCol (cols : List (List Char)) (name : List Char) (row : List Cell) : Cell :=
  match cols.findIdx? (fun c => c == name) with
  | some i => row.getD i .null
  | none => .null

/-- Numeric content of a cell (`id`/`amount` columns). -/
def cellToInt : Cell → Int
  | .num n => n
  | _ => 0

/-- Textual content of a cell (`name` column). -/
def cellToStr : Cell → List Char
  | .str s => s
  | _ => []

/-- Parsed-date content of a cell (`date` column after coercion). -/
def cellToDate : Cell → Option Int
  | .date d => some d
  | _ => none

/-- Extract the typed rows of a normalized data frame. -/
def rowsOf (df : DataFrame) : List Row :=
  df.rows.map (fun r =>
    ⟨cellToInt (lookupCol df.cols "id".toList r),
      cellToStr (lookupCol df.cols "name".toList r),
      cellToDate (lookupCol df.cols dateLit r),
      cellToInt (lookupCol df.cols "amount".toList r)⟩)

/-- `ReconcilationService.reconcile_and_save_data` (lines 49-56): read
and normalize both files, reconcile, and update the record with the
three result lists and `Status.SUCCESS` in one save. The outcome of
each `pd.read_csv` call is an input (`Except` capturing a possible
`ParserError`, which is a `ValueError`); any error propagates before
anything is written, so the record is only produced on full success. -/
def reconcile_and_save_data (srcRead tgtRead : Except PyError DataFrame)
    (record : JobRecord) : Except PyError JobRecord := do
  let srcRaw ← srcRead
  let source_df ← normalize_data srcRaw
  let tgtRaw ← tgtRead
  let target_df ← normalize_data tgtRaw
  let reconciled := reconcile_data (rowsOf source_df) (rowsOf target_df)
  pure { record with
    status := Status.SUCCESS
    missing_data_in_source_file := some reconciled.missing_data_in_source_file
    missing_data_in_target_file := some reconciled.missing_data_in_target_file
    discrepancies := some reconciled.discrepancies }

/-- The response dictionary of `generate_result` (tasks.py lines
9-18); the source spells the success status "sucess". -/
structure TaskResult where
  status : List Char
  message : List Char
  error : Option (List Char)
deriving DecidableEq, Repr

/-- `generate_result` (tasks.py lines 9-18). -/
def generate_result (message : List Char) (status : Bool) (error : Option (List Char)) :
    TaskResult :=
  ⟨if status then "sucess".toList else "failed".toList, message, error⟩

/-- `trigger_reconcilation` (tasks.py lines 21-46). The database is
modelled by the record found for the task id (`none` when the lookup
raises `DoesNotExist`); the value is the record after the run together
with the task outcome, where `Except.error` models an exception
escaping the task body — only `ValueError` is caught, a `KeyError`
from `normalize_data` propagates. -/
def trigger_reconcilation (srcRead tgtRead : Except PyError DataFrame)
    (record : Option JobRecord) : Option JobRecord × Except PyError TaskResult :=
  match record with
  | none =>
    (none, .ok (generate_result "record with this task_id does not exist".toList false none))
  | some rec =>
    if rec.status ≠ Status.PROCESSING then
      (some rec, .ok (generate_result "this task has already been processed".toList true none))
    else
      match reconcile_and_save_data srcRead tgtRead rec with
      | .ok rec2 =>
        (some rec2, .ok (generate_result "task processed and saved successfully".toList true none))
      | .error (.valueError m) =>
        (some rec, .ok (generate_result "an error occurred".toList false (some m)))
      | .error (.keyError m) =>
        (some rec, .error (.keyError m))

/-! ## Specification-side definitions and concrete instances -/

/-- Matcher contract as the spec words it: the rows of `A` whose
`(id, name)` key tuple is absent from the set of key tuples of `B`,
rendered to the canonical output shape. Stated from the spec, to be
compared with `find_missing_in_target`. -/
def missingSpec (A B : List Row) : List OutRow :=
  (A.filter (fun r => !(B.any (fun w => w.id == r.id && w.name == r.name)))).map
    (fun r => ⟨r.id, r.name, renderDate r.date, r.amount⟩)

/-- Substring test: does `pat` occur contiguously in `l`? -/
def containsSub (l pat : List Char) : Bool :=
  l.tails.any (fun t => pat.isPrefixOf t)

/-- A raw dataset lacking the required `amount` column. -/
def dfNoAmount : DataFrame :=
  ⟨["ID".toList, "Name".toList, "Date".toList],
    [[.num 1, .str "a".toList, .str "2024-01-01".toList]]⟩

/-- A raw dataset with all four required columns. -/
def dfGood : DataFrame :=
  ⟨["ID ".toList, " Name".toList, "Date".toList, "Amount".toList],
    [[.num 1, .str "  Ab ".toList, .str "2024-01-01".toList, .num 100]]⟩

/-- The normalized form of `dfGood`. -/
def dfGoodNorm : DataFrame :=
  ⟨["id".toList, "name".toList, "date".toList, "amount".toList],
    [[.num 1, .str "ab".toList, .date 20240101, .num 100]]⟩

/-- A fresh job record, as `create_record` leaves it. -/
def freshRecord : JobRecord :=
  ⟨Status.PROCESSING, none, none, none⟩

/-- Concrete source side for the C2 witness. -/
def w2s : List Row := [⟨1, "a".toList, some 7, 100⟩]

/-- Concrete target side for the C2 witness. -/
def w2t : List Row := [⟨1, "b".toList, some 7, 100⟩]

/-- The joined pair produced by `innerMergeId w2s w2t`. -/
def w2j : JoinedRow := ⟨1, "a".toList, "b".toList, some 7, some 7, 100, 100⟩

/-! ## Lemmas: idempotence of the text normalization -/

lemma lowerChar_eq_self (c : Char) (h : ¬(65 ≤ c.toNat ∧ c.toNat ≤ 90)) :
    lowerChar c = c := by
  unfold lowerChar
  exact if_neg h

lemma toNat_lowerChar_of_upper (c : Char) (h : 65 ≤ c.toNat ∧ c.toNat ≤ 90) :
    (lowerChar c).toNat = c.toNat + 32 := by
  have hv : (c.toNat + 32).isValidChar := Or.inl (by omega)
  unfold lowerChar
  rw [if_pos h]
  unfold Char.ofNat
  rw [dif_pos hv]
  rfl

lemma lowerChar_idem (c : Char) : lowerChar (lowerChar c) = lowerChar c := by
  by_cases h : 65 ≤ c.toNat ∧ c.toNat ≤ 90
  · have ht := toNat_lowerChar_of_upper c h
    have hn : ¬(65 ≤ (lowerChar c).toNat ∧ (lowerChar c).toNat ≤ 90) := by omega
    exact lowerChar_eq_self _ hn
  · have hc := lowerChar_eq_self c h
    rw [hc, hc]

lemma isSpace_lowerChar (c : Char) : isSpace (lowerChar c) = isSpace c := by
  by_cases h : 65 ≤ c.toNat ∧ c.toNat ≤ 90
  · have ht := toNat_lowerChar_of_upper c h
    have ha : isSpace c = false := by
      simp only [isSpace, Bool.or_eq_false_iff, decide_eq_false_iff_not]
      omega
    have hb : isSpace (lowerChar c) = false := by
      simp only [isSpace, Bool.or_eq_false_iff, decide_eq_false_iff_not, ht]
      omega
    rw [ha, hb]
  · rw [lowerChar_eq_self c h]

lemma head?_dropWhile_fail {α : Type} (p : α → Bool) (l : List α) {c : α}
    (h : (l.dropWhile p).head? = some c) : p c = false := by
  have hm := List.head?_dropWhile_not p l
  rw [h] at hm
  exact hm

lemma dropWhile_eq_self_of {α : Type} {p : α → Bool} (l : List α)
    (h : ∀ c, l.head? = some c → p c = false) : l.dropWhile p = l := by
  cases l with
  | nil => rfl
  | cons a t => simp [List.dropWhile, h a rfl]

lemma dropWhile_dropWhile {α : Type} (p : α → Bool) (l : List α) :
    (l.dropWhile p).dropWhile p = l.dropWhile p :=
  dropWhile_eq_self_of _ (fun _ hc => head?_dropWhile_fail p l hc)

lemma strip_head_fail (l : List Char) {c : Char}
    (h : (strip l).head? = some c) : isSpace c = false := by
  unfold strip at h
  rw [List.head?_reverse] at h
  obtain ⟨t, ht⟩ := List.dropWhile_suffix (l := (l.dropWhile isSpace).reverse) isSpace
  have h2 : (l.dropWhile isSpace).reverse.getLast? = some c := by
    rw [← ht, List.getLast?_append, h]
    rfl
  rw [List.getLast?_reverse] at h2
  exact head?_dropWhile_fail isSpace l h2

lemma strip_idem (l : List Char) : strip (strip l) = strip l := by
  have h1 : (strip l).dropWhile isSpace = strip l :=
    dropWhile_eq_self_of _ (fun _ hc => strip_head_fail l hc)
  show (((strip l).dropWhile isSpace).reverse.dropWhile isSpace).reverse = strip l
  rw [h1]
  have h2 : (strip l).reverse = (l.dropWhile isSpace).reverse.dropWhile isSpace := by
    simp [strip]
  rw [h2, dropWhile_dropWhile]
  simp [strip]

lemma strip_map_lower (l : List Char) :
    strip (l.map lowerChar) = (strip l).map lowerChar := by
  have hpf : (isSpace ∘ lowerChar) = isSpace := funext isSpace_lowerChar
  unfold strip
  rw [List.dropWhile_map, hpf, ← List.map_reverse, List.dropWhile_map, hpf,
    ← List.map_reverse]

lemma cellNorm_idem (s : List Char) : cellNorm (cellNorm s) = cellNorm s := by
  unfold cellNorm
  rw [strip_map_lower, strip_idem, List.map_map]
  congr 1
  exact funext lowerChar_idem

lemma colNorm_idem (s : List Char) : colNorm (colNorm s) = colNorm s := by
  unfold colNorm
  rw [← strip_map_lower, strip_idem, List.map_map]
  have hf : (lowerChar ∘ lowerChar) = lowerChar := funext lowerChar_idem
  rw [hf]

/-! ## Lemmas: idempotence of `normalize_data` -/

lemma normalizeCell_idem (x : Cell) : normalizeCell (normalizeCell x) = normalizeCell x := by
  cases x with
  | str s => simp [normalizeCell, cellNorm_idem]
  | num n => rfl
  | date d => rfl
  | null => rfl

lemma normalizeCell_parseDateCell (x : Cell) :
    normalizeCell (parseDateCell x) = parseDateCell x := by
  cases x with
  | str s =>
    simp only [parseDateCell]
    cases parseDateStr s with
    | some d => rfl
    | none => rfl
  | num n => rfl
  | date d => rfl
  | null => rfl

lemma parseDateCell_parseDateCell (x : Cell) :
    parseDateCell (parseDateCell x) = parseDateCell x := by
  cases x with
  | str s =>
    simp only [parseDateCell]
    cases parseDateStr s with
    | some d => rfl
    | none => rfl
  | num n => rfl
  | date d => rfl
  | null => rfl

lemma parseDateRow_stable (cs : List (List Char)) (r : List Cell)
    (h : ∀ x ∈ r, normalizeCell x = x) :
    parseDateRow cs ((parseDateRow cs r).map normalizeCell) = parseDateRow cs r := by
  induction cs generalizing r with
  | nil =>
    simp only [parseDateRow]
    calc r.map normalizeCell = r.map id := List.map_congr_left h
      _ = r := List.map_id r
  | cons c cs ih =>
    cases r with
    | nil => simp [parseDateRow]
    | cons x xs =>
      have hx : normalizeCell x = x := h x (by simp)
      have hxs : ∀ y ∈ xs, normalizeCell y = y := fun y hy => h y (by simp [hy])
      by_cases hc : c = dateLit
      · simp only [parseDateRow, if_pos hc, List.map_cons]
        rw [normalizeCell_parseDateCell, parseDateCell_parseDateCell, ih xs hxs]
      · simp only [parseDateRow, if_neg hc, List.map_cons]
        rw [hx, ih xs hxs]

lemma normalize_data_some (df : DataFrame) (c : List Char)
    (h : requiredColumns.find? (fun c => !((df.cols.map colNorm).contains c)) = some c) :
    normalize_data df = .error (.keyError (missingMsg c)) := by
  unfold normalize_data
  rw [h]

lemma normalize_data_none (df : DataFrame)
    (h : requiredColumns.find? (fun c => !((df.cols.map colNorm).contains c)) = none) :
    normalize_data df = .ok ⟨df.cols.map colNorm,
      (df.rows.map (List.map normalizeCell)).map (parseDateRow (df.cols.map colNorm))⟩ := by
  unfold normalize_data
  rw [h]

/-- C9: `normalize_data` is idempotent — normalizing its own output
reproduces that output exactly. -/
theorem claim_C9_normalize_idempotent (df df1 : DataFrame)
    (h : normalize_data df = .ok df1) : normalize_data df1 = .ok df1 := by
  cases hfind : requiredColumns.find? (fun c => !((df.cols.map colNorm).contains c)) with
  | some c =>
    rw [normalize_data_some df c hfind] at h
    exact absurd h (by simp)
  | none =>
    rw [normalize_data_none df hfind] at h
    have hdf : df1 = ⟨df.cols.map colNorm,
        (df.rows.map (List.map normalizeCell)).map (parseDateRow (df.cols.map colNorm))⟩ := by
      injection h with h2
      exact h2.symm
    have hcols : (df.cols.map colNorm).map colNorm = df.cols.map colNorm := by
      rw [List.map_map]
      have hf : (colNorm ∘ colNorm) = colNorm := funext colNorm_idem
      rw [hf]
    have hc1 : df1.cols = df.cols.map colNorm := by rw [hdf]
    have hr1 : df1.rows = (df.rows.map (List.map normalizeCell)).map
        (parseDateRow (df.cols.map colNorm)) := by rw [hdf]
    have hfind1 :
        requiredColumns.find? (fun c => !((df1.cols.map colNorm).contains c)) = none := by
      rw [hc1, hcols]
      exact hfind
    rw [normalize_data_none df1 hfind1, hc1, hr1, hcols, hdf]
    congr 2
    rw [List.map_map, List.map_map]
    apply List.map_congr_left
    intro r hr
    simp only [Function.comp_apply]
    apply parseDateRow_stable
    intro x hx
    obtain ⟨y, _, hy⟩ := List.mem_map.mp hr
    rw [← hy] at hx
    obtain ⟨z, _, hz⟩ := List.mem_map.mp hx
    rw [← hz]
    exact normalizeCell_idem z

/-- Witness for C9 at a concrete raw dataset that normalizes
successfully. -/
theorem claim_C9_witness :
    normalize_data dfGood = .ok dfGoodNorm ∧
    normalize_data dfGoodNorm = .ok dfGoodNorm :=
  ⟨rfl, claim_C9_normalize_idempotent dfGood dfGoodNorm rfl⟩

/-! ## Lemmas: the Matcher -/

lemma isEmpty_filter_eq_not_any {α : Type} (p : α → Bool) (l : List α) :
    (l.filter p).isEmpty = !(l.any p) := by
  induction l with
  | nil => rfl
  | cons a t ih =>
    by_cases h : p a = true
    · simp [List.filter_cons, List.any_cons, h]
    · simp only [Bool.not_eq_true] at h
      simp [List.filter_cons, List.any_cons, h, ih]

lemma leftMergeIdName_cons (a : Row) (A B : List Row) :
    leftMergeIdName (a :: A) B =
      (if (B.filter (fun w => w.id == a.id && w.name == a.name)).isEmpty
        then [⟨a, none, .left_only⟩]
        else (B.filter (fun w => w.id == a.id && w.name == a.name)).map
          (fun m => ⟨a, some m, .both⟩)) ++ leftMergeIdName A B := by
  unfold leftMergeIdName
  rw [List.flatMap_cons]

/-- C1: the Matcher returns exactly the rows of its first argument
whose `(id, name)` key tuple is absent from the key tuples of its
second argument (formatted to the output shape), and matching a
dataset against itself returns nothing; any row of the second dataset
sharing the key suppresses the row, however many share it. -/
theorem claim_C1_find_missing_exact :
    (∀ A B : List Row, find_missing_in_target A B = missingSpec A B) ∧
    (∀ A : List Row, find_missing_in_target A A = []) := by
  have main : ∀ A B : List Row, find_missing_in_target A B = missingSpec A B := by
    intro A B
    induction A with
    | nil => rfl
    | cons a A ih =>
      unfold find_missing_in_target at ih ⊢
      unfold missingSpec at ih ⊢
      rw [leftMergeIdName_cons, List.filter_append]
      unfold format_missing_data at ih ⊢
      rw [List.map_append, ih, List.filter_cons]
      by_cases hany : B.any (fun w => w.id == a.id && w.name == a.name) = true
      · have hms : (B.filter (fun w => w.id == a.id && w.name == a.name)).isEmpty = false := by
          rw [isEmpty_filter_eq_not_any, hany]
          rfl
        rw [if_neg (by rw [hms]; exact Bool.false_ne_true), hany]
        have hnil : ((B.filter (fun w => w.id == a.id && w.name == a.name)).map
            (fun m => (⟨a, some m, .both⟩ : MergedRow))).filter
              (fun m => m.tag == MergeTag.left_only) = [] := by
          rw [List.filter_eq_nil_iff]
          intro x hx
          obtain ⟨m, _, hm⟩ := List.mem_map.mp hx
          rw [← hm]
          simp
        rw [hnil]
        simp
      · have hms : (B.filter (fun w => w.id == a.id && w.name == a.name)).isEmpty = true := by
          rw [isEmpty_filter_eq_not_any]
          simp only [Bool.not_eq_true] at hany
          rw [hany]
          rfl
        rw [if_pos hms]
        simp only [Bool.not_eq_true] at hany
        rw [hany]
        simp [List.filter_cons]
  refine ⟨main, fun A => ?_⟩
  rw [main A A]
  unfold missingSpec
  have hfil : A.filter (fun r => !(A.any (fun w => w.id == r.id && w.name == r.name))) = [] := by
    rw [List.filter_eq_nil_iff]
    intro r hr
    have : A.any (fun w => w.id == r.id && w.name == r.name) = true :=
      List.any_eq_true.mpr ⟨r, hr, by simp⟩
    simp [this]
  rw [hfil]
  rfl

/-! ## Lemmas: the Discrepancy Detector -/

lemma renderDate_eq (x : Option Int) : renderDate x = x := by
  cases x with
  | some d => rfl
  | none => rfl

lemma renderJoined_eq (j : JoinedRow) : renderJoined j = j := by
  cases j
  simp [renderJoined, renderDate_eq]

lemma maskRow_of_diff (j : JoinedRow)
    (hdiff : j.name_source ≠ j.name_target ∨ j.date_source ≠ j.date_target
      ∨ j.amount_source ≠ j.amount_target) : maskRow j = true := by
  unfold maskRow
  rcases hdiff with h | h | h
  · simp [bne_iff_ne, h]
  · have hd : seriesNeDate j.date_source j.date_target = true := by
      unfold seriesNeDate
      cases hs : j.date_source with
      | none => cases ht : j.date_target <;> rfl
      | some x =>
        cases ht : j.date_target with
        | none => rfl
        | some y =>
          rw [hs, ht] at h
          simp only [bne_iff_ne, ne_eq]
          intro hxy
          exact h (by rw [hxy])
    rw [hd]
    simp
  · simp [bne_iff_ne, h]

/-- C2: every joined pair with at least one genuinely differing field
(null dates being equal to each other) yields an emitted entry whose
three optional field pairs are present exactly for the differing
fields, carrying the source and target values. -/
theorem claim_C2_discrepancy_fields_exact (s t : List Row) (j : JoinedRow)
    (hj : j ∈ innerMergeId s t)
    (hdiff : j.name_source ≠ j.name_target ∨ j.date_source ≠ j.date_target
      ∨ j.amount_source ≠ j.amount_target) :
    pruneEntry (fullEntry (renderJoined j)) ∈ find_discrepancies s t ∧
    (pruneEntry (fullEntry (renderJoined j))).id = j.id ∧
    ((pruneEntry (fullEntry (renderJoined j))).name = none ↔
      j.name_source = j.name_target) ∧
    (j.name_source ≠ j.name_target →
      (pruneEntry (fullEntry (renderJoined j))).name
        = some (j.name_source, j.name_target)) ∧
    ((pruneEntry (fullEntry (renderJoined j))).date = none ↔
      j.date_source = j.date_target) ∧
    (j.date_source ≠ j.date_target →
      (pruneEntry (fullEntry (renderJoined j))).date
        = some (renderDate j.date_source, renderDate j.date_target)) ∧
    ((pruneEntry (fullEntry (renderJoined j))).amount = none ↔
      j.amount_source = j.amount_target) ∧
    (j.amount_source ≠ j.amount_target →
      (pruneEntry (fullEntry (renderJoined j))).amount
        = some (j.amount_source, j.amount_target)) := by
  refine ⟨?_, ?_, ?_, ?_, ?_, ?_, ?_, ?_⟩
  · unfold find_discrepancies format_discrepancies
    exact List.mem_map.mpr ⟨j, List.mem_filter.mpr ⟨hj, maskRow_of_diff j hdiff⟩, rfl⟩
  · rw [renderJoined_eq]
    rfl
  · rw [renderJoined_eq]
    simp only [pruneEntry, fullEntry, dropIfEq]
    split <;> simp_all
  · rw [renderJoined_eq]
    intro hne
    simp only [pruneEntry, fullEntry, dropIfEq]
    rw [if_neg hne]
  · rw [renderJoined_eq]
    simp only [pruneEntry, fullEntry, dropIfEq]
    split <;> simp_all
  · rw [renderJoined_eq]
    intro hne
    simp only [pruneEntry, fullEntry, dropIfEq]
    rw [if_neg hne, renderDate_eq, renderDate_eq]
  · rw [renderJoined_eq]
    simp only [pruneEntry, fullEntry, dropIfEq]
    split <;> simp_all
  · rw [renderJoined_eq]
    intro hne
    simp only [pruneEntry, fullEntry, dropIfEq]
    rw [if_neg hne]

/-- Witness for C2 at a concrete joined pair differing in `name`. -/
theorem claim_C2_witness :
    w2j ∈ innerMergeId w2s w2t ∧
    pruneEntry (fullEntry (renderJoined w2j)) ∈ find_discrepancies w2s w2t :=
  ⟨by decide, (claim_C2_discrepancy_fields_exact w2s w2t w2j (by decide)
    (Or.inl (by decide))).1⟩

/-! ## Theorems: the null-date comparison slip (C3, C4, C5) -/

/-- C3 fails on the code: a pair of rows identical in `id`, `name`,
`amount` and with unparseable (`NaT`) dates on both sides is flagged
by the pandas mask (`NaT != NaT` is true) and an entry is emitted for
it — containing no field pair at all after pruning. -/
theorem claim_C3_identical_rows_entry_emitted :
    find_discrepancies [⟨1, "a".toList, none, 100⟩] [⟨1, "a".toList, none, 100⟩]
      = [⟨1, none, none, none⟩] := by decide

/-- C4 fails on the code: the discrepancies output can contain an
entry with zero differing field pairs (only the `id` key), produced by
a pair whose dates are both null and whose other fields agree. -/
theorem claim_C4_empty_entry_emitted :
    ∃ e ∈ find_discrepancies [⟨2, "b".toList, none, 5⟩] [⟨2, "b".toList, none, 5⟩],
      e.name = none ∧ e.date = none ∧ e.amount = none := by decide

/-- C5 partially fails on the code: a null date against a parsed date
does count as a discrepancy (first entry, date pair present), and the
row is still matched and compared on the other fields; but a null date
against a null date also produces an emitted entry (second entry,
empty), instead of counting as equal. -/
theorem claim_C5_null_date_comparison :
    find_discrepancies
        [⟨1, "a".toList, none, 100⟩, ⟨2, "b".toList, none, 50⟩]
        [⟨1, "a".toList, some 20240101, 100⟩, ⟨2, "b".toList, none, 50⟩]
      = [⟨1, none, some (none, some 20240101), none⟩, ⟨2, none, none, none⟩] := by decide

/-! ## Theorems: schema errors (C6) -/

lemma isPrefixOf_self_append (p b : List Char) : p.isPrefixOf (p ++ b) = true := by
  induction p with
  | nil => simp [List.isPrefixOf]
  | cons x xs ih => simp [List.isPrefixOf, ih]

lemma containsSub_middle (a p b : List Char) : containsSub (a ++ (p ++ b)) p = true := by
  unfold containsSub
  rw [List.any_eq_true]
  refine ⟨p ++ b, ?_, isPrefixOf_self_append p b⟩
  rw [List.mem_tails]
  exact ⟨a, rfl⟩

/-- C6 fails on the code as stated: for a dataset lacking `amount`,
the raised message names the column but mentions neither `source` nor
`target` — it reads "... one of the DataFrames." and is the same
whichever dataset was being normalized. -/
theorem claim_C6_counterexample :
    normalize_data dfNoAmount = .error (.keyError (missingMsg "amount".toList)) ∧
    containsSub (missingMsg "amount".toList) "source".toList = false ∧
    containsSub (missingMsg "amount".toList) "target".toList = false :=
  ⟨rfl, by decide, by decide⟩

/-- C6 amended: when a required column is missing after header
normalization, `normalize_data` fails with a `KeyError` whose message
names the (first) missing column, but not which dataset it came
from. -/
theorem claim_C6_amended_schema_error (df : DataFrame) (c : List Char)
    (hc : requiredColumns.find? (fun c => !((df.cols.map colNorm).contains c)) = some c) :
    normalize_data df = .error (.keyError (missingMsg c)) ∧
    containsSub (missingMsg c) c = true := by
  refine ⟨normalize_data_some df c hc, ?_⟩
  unfold missingMsg
  rw [List.append_assoc]
  exact containsSub_middle _ c _

/-- Witness for the amended C6 at a concrete dataset missing
`amount`. -/
theorem claim_C6_witness :
    (requiredColumns.find?
        (fun c => !((dfNoAmount.cols.map colNorm).contains c)) = some "amount".toList) ∧
    normalize_data dfNoAmount = .error (.keyError (missingMsg "amount".toList)) :=
  ⟨by decide, (claim_C6_amended_schema_error dfNoAmount ("amount".toList) (by decide)).1⟩

/-! ## Theorems: the job state machine (C7, C8) -/

/-- C7 fails on the code: a run whose source dataset lacks a required
column leaves the record with status `PROCESSING` — not `FAILED` — and
the `KeyError` escapes `trigger_reconcilation` uncaught (its
`except ValueError` does not catch it); no code path assigns
`Status.FAILED`. -/
theorem claim_C7_error_leaves_processing :
    (trigger_reconcilation (.ok dfNoAmount) (.ok dfGood) (some freshRecord)).1
        = some freshRecord ∧
    freshRecord.status = Status.PROCESSING ∧
    (trigger_reconcilation (.ok dfNoAmount) (.ok dfGood) (some freshRecord)).2
        = .error (.keyError (missingMsg "amount".toList)) :=
  ⟨rfl, rfl, rfl⟩

lemma trigger_reconcilation_some (srcRead tgtRead : Except PyError DataFrame)
    (rec : JobRecord) :
    trigger_reconcilation srcRead tgtRead (some rec) =
      if rec.status ≠ Status.PROCESSING then
        (some rec, .ok (generate_result "this task has already been processed".toList true none))
      else
        match reconcile_and_save_data srcRead tgtRead rec with
        | .ok rec2 =>
          (some rec2,
            .ok (generate_result "task processed and saved successfully".toList true none))
        | .error (.valueError m) =>
          (some rec, .ok (generate_result "an error occurred".toList false (some m)))
        | .error (.keyError m) => (some rec, .error (.keyError m)) := rfl

/-- C8: a run failing with any Normalizer or parse error writes
nothing — `trigger_reconcilation` leaves the stored record exactly as
it was, so no result field (nor the status) is updated. -/
theorem claim_C8_no_partial_result (srcRead tgtRead : Except PyError DataFrame)
    (rec : JobRecord) (e : PyError)
    (hrun : reconcile_and_save_data srcRead tgtRead rec = .error e) :
    (trigger_reconcilation srcRead tgtRead (some rec)).1 = some rec := by
  rw [trigger_reconcilation_some]
  by_cases hst : rec.status ≠ Status.PROCESSING
  · rw [if_pos hst]
  · rw [if_neg hst, hrun]
    cases e with
    | keyError m => rfl
    | valueError m => rfl

/-- Witness for C8 at a run whose source file fails to parse
(a `ParserError`, caught as `ValueError`). -/
theorem claim_C8_witness :
    reconcile_and_save_data (.error (.valueError "Error tokenizing data.".toList))
        (.ok dfGood) freshRecord
      = .error (.valueError "Error tokenizing data.".toList) ∧
    (trigger_reconcilation (.error (.valueError "Error tokenizing data.".toList))
        (.ok dfGood) (some freshRecord)).1 = some freshRecord :=
  ⟨rfl, claim_C8_no_partial_result _ _ freshRecord
    (.valueError "Error tokenizing data.".toList) rfl⟩

/-! ## Theorems: the join explosion (C10) -/

lemma innerMergeId_cons (r : Row) (s t : List Row) :
    innerMergeId (r :: s) t
      = (t.filter (fun w => w.id == r.id)).map
          (fun w => ⟨r.id, r.name, w.name, r.date, w.date, r.amount, w.amount⟩)
        ++ innerMergeId s t := by
  unfold innerMergeId
  rw [List.flatMap_cons]

lemma length_filter_block (r : Row) (t : List Row) (v : Int) :
    (((t.filter (fun w => w.id == r.id)).map
        (fun w => (⟨r.id, r.name, w.name, r.date, w.date, r.amount, w.amount⟩ : JoinedRow))).filter
          (fun j => j.id == v)).length
      = if r.id == v then (t.filter (fun w => w.id == r.id)).length else 0 := by
  rw [List.filter_map]
  by_cases hv : (r.id == v) = true
  · rw [if_pos hv, List.length_map]
    congr 1
    apply List.filter_eq_self.mpr
    intro a _
    simp [Function.comp, hv]
  · rw [if_neg hv, List.length_eq_zero, List.map_eq_nil_iff]
    apply List.filter_eq_nil_iff.mpr
    intro a _
    simp only [Function.comp_apply]
    simp [hv]

/-- C10: the discrepancy join is on `id` alone, so an `id` occurring
in `n` source rows and `m` target rows yields `n * m` joined candidate
pairs, with one output entry per mask-flagged pair; and duplicate keys
are never a validation failure — `normalize_data` succeeds or fails
independently of the row contents. -/
theorem claim_C10_join_explosion :
    (∀ (s t : List Row) (v : Int),
      ((innerMergeId s t).filter (fun j => j.id == v)).length
        = (s.filter (fun r => r.id == v)).length * (t.filter (fun r => r.id == v)).length) ∧
    (∀ s t : List Row, (find_discrepancies s t).length
        = ((innerMergeId s t).filter maskRow).length) ∧
    (∀ (cols : List (List Char)) (rows rows' : List (List Cell)),
      (normalize_data ⟨cols, rows⟩).isOk = (normalize_data ⟨cols, rows'⟩).isOk) := by
  refine ⟨?_, ?_, ?_⟩
  · intro s t v
    induction s with
    | nil => simp [innerMergeId]
    | cons r s ih =>
      rw [innerMergeId_cons, List.filter_append, List.length_append, ih,
        length_filter_block]
      by_cases hv : (r.id == v) = true
      · have hrv : r.id = v := beq_iff_eq.mp hv
        rw [if_pos hv, List.filter_cons, if_pos hv, List.length_cons, hrv]
        ring
      · rw [if_neg hv, List.filter_cons, if_neg hv]
        simp
  · intro s t
    unfold find_discrepancies format_discrepancies
    rw [List.length_map]
  · intro cols rows rows'
    cases hf : requiredColumns.find? (fun c => !((cols.map colNorm).contains c)) with
    | some c =>
      rw [normalize_data_some ⟨cols, rows⟩ c hf, normalize_data_some ⟨cols, rows'⟩ c hf]
    | none =>
      rw [normalize_data_none ⟨cols, rows⟩ hf, normalize_data_none ⟨cols, rows'⟩ hf]
      rfl

end Reconcile
